import Mathlib

/-!
Verification of the MailFlow resilience core.

This file gives a shallow embedding, in Lean 4, of the parts of the
popeskul/mailflow repository that its specification talks about:

* the three-state circuit breaker
  (`user-service/internal/circuitbreaker/circuit_breaker.go`),
* the retry queue and its drain loop
  (`user-service/internal/queue/queue.go`),
* the email sender core
  (`email-service/internal/services/email_service.go`),
* the producer's user-creation flow
  (`user-service/internal/services/user_service.go`),
* the exponential-backoff retrier (`Retrier.Do` in the retry package),
* the in-memory email and user repositories and their paginated `List`
  operations.

Go machine integers never approach their bounds in these code paths, so
counters are modelled as `Nat` and instants / durations (Go `time.Time`,
`time.Duration`) as `Int` (nanoseconds).  Fallible operations return
`Option`; a Go panic (out-of-bounds slice access) is modelled as `none`.
Where a method mutates a struct through a pointer, the embedding passes the
struct in and out explicitly.
-/

namespace Mailflow

/-! ## Circuit breaker (circuit_breaker.go) -/

namespace CB

/-- `State` of the circuit breaker: `StateClosed`, `StateOpen`,
`StateHalfOpen` in the Go source.  `open` is a Lean keyword, so the second
constructor is spelled `opened`. -/
inductive State where
  | closed
  | opened
  | halfOpen
deriving DecidableEq, Repr

/-- `Config` of the circuit breaker.  `Timeout` is a `time.Duration`
(nanoseconds), modelled as `Int`. -/
structure Config where
  failureThreshold : Nat
  successThreshold : Nat
  timeout : Int
  maxRequests : Nat
deriving DecidableEq, Repr

/-- `DefaultConfig()` from the Go source. -/
def defaultConfig : Config :=
  { failureThreshold := 5
    successThreshold := 2
    timeout := 30000000000
    maxRequests := 3 }

/-- The mutable fields of the Go `CircuitBreaker` struct.
`lastFailureTime` is an instant in nanoseconds. -/
structure CircuitBreaker where
  state : State
  failures : Nat
  successes : Nat
  lastFailureTime : Int
  halfOpenReqs : Nat
deriving DecidableEq, Repr

/-- `New`: fresh breaker, closed, all counters zero (Go zero values). -/
def CircuitBreaker.new : CircuitBreaker :=
  { state := .closed
    failures := 0
    successes := 0
    lastFailureTime := 0
    halfOpenReqs := 0 }

/-- Errors the admission gate can return. -/
inductive CBError where
  | circuitOpen
  | tooManyRequests
deriving DecidableEq, Repr

/-- `canExecute` from the Go source, with the current instant `now` passed
explicitly (`time.Since(cb.lastFailureTime)` is `now - cb.lastFailureTime`).
Returns the rejection error, if any, together with the updated breaker. -/
def canExecute (cfg : Config) (cb : CircuitBreaker) (now : Int) :
    Option CBError × CircuitBreaker :=
  match cb.state with
  | .closed => (none, cb)
  | .opened =>
      if cfg.timeout < now - cb.lastFailureTime then
        (none, { cb with state := .halfOpen, halfOpenReqs := 1, successes := 0 })
      else
        (some .circuitOpen, cb)
  | .halfOpen =>
      if cfg.maxRequests ≤ cb.halfOpenReqs then
        (some .tooManyRequests, cb)
      else
        (none, { cb with halfOpenReqs := cb.halfOpenReqs + 1 })

/-- `recordResult` from the Go source: `err = true` means the wrapped call
returned a non-nil error; `now` is the instant at which `time.Now()` is read
when a failure is recorded. -/
def recordResult (cfg : Config) (cb : CircuitBreaker) (err : Bool) (now : Int) :
    CircuitBreaker :=
  match cb.state with
  | .closed =>
      if err then
        let f := cb.failures + 1
        if cfg.failureThreshold ≤ f then
          { cb with failures := f, state := .opened, lastFailureTime := now }
        else
          { cb with failures := f }
      else
        { cb with failures := 0 }
  | .opened => cb
  | .halfOpen =>
      if err then
        { cb with state := .opened, lastFailureTime := now,
                  failures := cfg.failureThreshold }
      else
        let s := cb.successes + 1
        if cfg.successThreshold ≤ s then
          { cb with successes := s, state := .closed, failures := 0 }
        else
          { cb with successes := s }

/-- `Reset` from the Go source: back to closed, counters zeroed
(`lastFailureTime` is left as is). -/
def CircuitBreaker.reset (cb : CircuitBreaker) : CircuitBreaker :=
  { cb with state := .closed, failures := 0, successes := 0, halfOpenReqs := 0 }

/-- Result of one `Execute` call: the admission-rejection error (if any),
whether the wrapped function was invoked, and the breaker afterwards. -/
structure ExecResult where
  reject : Option CBError
  invoked : Bool
  cb : CircuitBreaker
deriving DecidableEq, Repr

/-- `Execute` from the Go source: `canExecute`, then (if admitted) the
wrapped call runs and its outcome `fnErr` is recorded.  `nowAdmit` and
`nowRecord` are the instants of the admission check and of the recording. -/
def Execute (cfg : Config) (cb : CircuitBreaker) (nowAdmit nowRecord : Int)
    (fnErr : Bool) : ExecResult :=
  match canExecute cfg cb nowAdmit with
  | (some e, cb1) => ⟨some e, false, cb1⟩
  | (none, cb1) => ⟨none, true, recordResult cfg cb1 fnErr nowRecord⟩

/-- The states a breaker can reach from `New` under any interleaving of
admission checks, result recordings and resets, at arbitrary instants. -/
inductive Reachable (cfg : Config) : CircuitBreaker → Prop where
  | init : Reachable cfg CircuitBreaker.new
  | admission (cb : CircuitBreaker) (now : Int) :
      Reachable cfg cb → Reachable cfg (canExecute cfg cb now).2
  | record (cb : CircuitBreaker) (err : Bool) (now : Int) :
      Reachable cfg cb → Reachable cfg (recordResult cfg cb err now)
  | reset (cb : CircuitBreaker) :
      Reachable cfg cb → Reachable cfg cb.reset

end CB

/-! ## Email domain (email-service/internal/domain/email.go) -/

/-- Email status constants `StatusPending`, `StatusSent`, `StatusFailed`. -/
inductive Status where
  | pending
  | sent
  | failed
deriving DecidableEq, Repr

/-- The `domain.Email` struct.  `CreatedAt` is an instant (`Int`,
nanoseconds); `SentAt` is `*time.Time`, i.e. `Option Int`. -/
structure EmailRec where
  id : String
  toAddr : String
  subject : String
  body : String
  status : Status
  createdAt : Int
  sentAt : Option Int
deriving DecidableEq, Repr

instance : Inhabited EmailRec :=
  ⟨⟨"", "", "", "", .pending, 0, none⟩⟩

/-- `domain.NewEmail`: fresh email in status `pending`, created `now`,
`SentAt` nil.  The uuid generation is abstracted into the `id` argument. -/
def newEmail (id toAddr subject body : String) (now : Int) : EmailRec :=
  { id := id, toAddr := toAddr, subject := subject, body := body,
    status := .pending, createdAt := now, sentAt := none }

/-- Whether a non-nil `SentAt` at or after `CreatedAt` is recorded. -/
def EmailRec.sentAtOK (e : EmailRec) : Bool :=
  match e.sentAt with
  | none => false
  | some t => e.createdAt ≤ t

/-- The spec's Email invariant: `sent` implies the delivery time is set and
at or after the creation time; `pending` and `failed` imply it is unset. -/
def emailInv (e : EmailRec) : Prop :=
  (e.status = .sent → e.sentAtOK = true) ∧
  ((e.status = .pending ∨ e.status = .failed) → e.sentAt = none)

instance (e : EmailRec) : Decidable (emailInv e) := by
  unfold emailInv; infer_instance

/-! ## Retry queue (user-service/internal/queue/queue.go)

The Go queue is a buffered channel of capacity `bufferSize`; a
non-blocking send (`select` with `default`) succeeds exactly when the
buffer holds fewer than `capacity` items. -/

/-- The `EmailQueue`: FIFO buffer plus fixed capacity. -/
structure EmailQueue where
  buffer : List EmailRec
  capacity : Nat
deriving DecidableEq, Repr

/-- `Enqueue`: non-blocking; `none` models the "queue is full" error. -/
def enqueue (q : EmailQueue) (e : EmailRec) : Option EmailQueue :=
  if q.buffer.length < q.capacity then
    some { q with buffer := q.buffer ++ [e] }
  else
    none

/-- Best-effort enqueue of a batch (each item is dropped if the queue is
full at its turn); models concurrent producers running while the drain
worker sleeps through its back-off. -/
def enqueueBestEffort (q : EmailQueue) (es : List EmailRec) : EmailQueue :=
  es.foldl (fun q e => (enqueue q e).getD q) q

/-- Observable outcome of one iteration of `EmailQueue.Start`'s loop. -/
structure DrainStep where
  /-- queue contents after the iteration -/
  queue : EmailQueue
  /-- the processor returned nil for the dequeued entry -/
  processedOk : Bool
  /-- the entry went back into the queue after the back-off -/
  reEnqueued : Bool
  /-- the dequeued entry's email record after the iteration -/
  email : EmailRec
deriving DecidableEq, Repr

/-- One iteration of the drain loop in `EmailQueue.Start`: dequeue the head
entry and run the processor on it (`procErr = true` models a non-nil
processor error).  On error the worker sleeps 5 s and re-enqueues the entry;
`arrivals` are items other goroutines enqueue during that sleep.  If the
re-enqueue finds the queue full, the failure is only logged.  The loop body
itself never writes to the email record, so the record is returned as it
was dequeued.  `none` models an empty queue (the worker blocks). -/
def drainIteration (q : EmailQueue) (procErr : Bool)
    (arrivals : List EmailRec) : Option DrainStep :=
  match q.buffer with
  | [] => none
  | e :: rest =>
      let q1 : EmailQueue := { q with buffer := rest }
      if procErr then
        let q2 := enqueueBestEffort q1 arrivals
        match enqueue q2 e with
        | some q3 => some ⟨q3, false, true, e⟩
        | none => some ⟨q2, false, false, e⟩
      else
        some ⟨q1, true, false, e⟩

/-! ## Email sender core (email-service/internal/services/email_service.go)

The service's collaborators (repository save/update, rate limiter,
underlying sender, retry-queue occupancy) are modelled by their outcomes,
and the repository record by the email value passed in and out: the Go
repository stores the same `*domain.Email` the service mutates, so each
`UpdateStatus(id, status, sentAt)` call is the assignment of those two
fields on the record. -/

/-- Outcomes of the collaborators during one `SendEmail` call. -/
structure SendDeps where
  /-- `repo.Save` returns an error -/
  saveErr : Bool
  /-- `rateLimiter.Wait` returns an error -/
  rateLimitErr : Bool
  /-- `sender.Send` returns an error -/
  senderErr : Bool
  /-- the final `repo.UpdateStatus` returns an error -/
  updateErr : Bool
  /-- the retry queue is full when `queueForRetry` runs -/
  queueFull : Bool
deriving DecidableEq, Repr

/-- Result of `SendEmail` (or of one drain-loop iteration): the email
record afterwards, whether a non-nil error was returned to the caller, and
whether the email ended up in the retry queue. -/
structure SendOutcome where
  email : EmailRec
  returnedErr : Bool
  enqueued : Bool
deriving DecidableEq, Repr

/-- `queueForRetry` from the Go source: sets the status to `pending`, then
non-blockingly sends to the retry channel.  If accepted, the repository
record is updated to (`pending`, nil `SentAt`); if the queue is full, the
email is marked `failed` and the record updated to (`failed`, nil).
Returns the record and whether the email was enqueued. -/
def queueForRetry (e : EmailRec) (queueFull : Bool) : EmailRec × Bool :=
  let e1 := { e with status := Status.pending }
  if queueFull then
    ({ e1 with status := Status.failed, sentAt := none }, false)
  else
    ({ e1 with sentAt := none }, true)

/-- `SendEmail` from the Go source.  `t0` is the creation instant
(`NewEmail`), `t1` the instant `time.Now()` is read on successful dispatch.
A failed save surfaces an error; a rate-limit or sender failure routes
through `queueForRetry` and returns the email with a nil error; on success
the record becomes (`sent`, `SentAt = t1`), and a failing final
`UpdateStatus` surfaces an error alongside the email. -/
def sendEmail (d : SendDeps) (id toAddr subject body : String) (t0 t1 : Int) :
    SendOutcome :=
  let e := newEmail id toAddr subject body t0
  if d.saveErr then
    ⟨e, true, false⟩
  else if d.rateLimitErr then
    let r := queueForRetry e d.queueFull
    ⟨r.1, false, r.2⟩
  else if d.senderErr then
    let r := queueForRetry e d.queueFull
    ⟨r.1, false, r.2⟩
  else
    let e1 := { e with status := Status.sent, sentAt := some t1 }
    if d.updateErr then ⟨e1, true, false⟩ else ⟨e1, false, false⟩

/-- Collaborator outcomes for one iteration of `processRetryQueue`. -/
structure ProcDeps where
  rateLimitErr : Bool
  sendErr : Bool
  updateErr : Bool
  queueFull : Bool
deriving DecidableEq, Repr

/-- One iteration of the sender core's drain loop `processRetryQueue`, on a
dequeued email `e`, with `now` the instant read on successful dispatch:
a rate-limit or send failure re-queues via `queueForRetry`; on success the
record becomes (`sent`, `SentAt = now`); if the subsequent `UpdateStatus`
fails, the email is re-queued via `queueForRetry` as well. -/
def processQueueStep (e : EmailRec) (d : ProcDeps) (now : Int) :
    SendOutcome :=
  if d.rateLimitErr then
    let r := queueForRetry e d.queueFull
    ⟨r.1, false, r.2⟩
  else if d.sendErr then
    let r := queueForRetry e d.queueFull
    ⟨r.1, false, r.2⟩
  else
    let e1 := { e with status := Status.sent, sentAt := some now }
    if d.updateErr then
      let r := queueForRetry e1 d.queueFull
      ⟨r.1, false, r.2⟩
    else
      ⟨e1, false, false⟩

/-! ## User domain and producer flow
(user-service/internal/domain/user.go,
 user-service/internal/services/user_service.go,
 user-service/internal/repositories/memory/user_repository.go) -/

/-- The `domain.User` struct. -/
structure UserRec where
  id : String
  email : String
  name : String
  createdAt : Int
  updatedAt : Int
deriving DecidableEq, Repr

instance : Inhabited UserRec := ⟨⟨"", "", "", 0, 0⟩⟩

/-- `UserRepository.Create`: rejects an already-present identifier,
otherwise appends the user to the store.  The store is modelled by the
repository's `sortedUsers` sequence (membership agrees with the keyed
map). -/
def repoCreateUser (store : List UserRec) (u : UserRec) :
    Option (List UserRec) :=
  if store.any (fun v => v.id = u.id) then none else some (store ++ [u])

/-- Result of `UserService.Create`: the store afterwards, the returned
user (none on error), and whether a non-nil error was returned. -/
structure CreateResult where
  store : List UserRec
  user : Option UserRec
  returnedErr : Bool
deriving DecidableEq, Repr

/-- `UserService.Create` from the Go source: persist the user; on
persistence failure return the error.  Then fire the welcome email;
`emailErr = true` models a non-nil error from the resilient email send,
which is only logged ("Don't return error as user is already created") —
the created user is returned with a nil error either way. -/
def createUser (store : List UserRec) (u : UserRec) (emailErr : Bool) :
    CreateResult :=
  match repoCreateUser store u with
  | none => ⟨store, none, true⟩
  | some store1 =>
      match emailErr with
      | true => ⟨store1, some u, false⟩
      | false => ⟨store1, some u, false⟩

/-! ## Retrier (retry package, `Retrier.Do`) -/

namespace Retry

/-- An error returned by the wrapped function: `retryable` is
`some b` when the error implements `RetryableError` with `Retryable() = b`,
and `none` when it does not implement the interface. -/
structure RErr where
  retryable : Option Bool
deriving DecidableEq, Repr

/-- What `Do` returns: nil, the context's cancellation error, or the last
function error. -/
inductive DoErr where
  | ctxCancelled
  | fnErr (e : RErr)
deriving DecidableEq, Repr

/-- Observable outcome of `Retrier.Do`: the returned error (none = nil),
how many times `fn` was invoked, and how many back-off sleeps completed. -/
structure DoResult where
  err : Option DoErr
  calls : Nat
  sleeps : Nat
deriving DecidableEq, Repr

/-- The loop body of `Retrier.Do`, one constructor per iteration of
`for attempt := 0; ShouldRetry(attempt); attempt++`.  `should` is the
strategy's `ShouldRetry`; `cancelAt n` says the context is cancelled
during the sleep preceding attempt `n`; `fn n` is the error (if any) of
the `n`-th invocation of the wrapped function.  `fuel` bounds the number
of iterations unfolded (the Go loop exits whenever `should` turns false;
for the repository's `ExponentialBackoff` strategy, `fuel ≥ MaxAttempts`
makes the bound inert). -/
def doLoop (should : Nat → Bool) (cancelAt : Nat → Bool)
    (fn : Nat → Option RErr) :
    Nat → Nat → Option DoErr → Nat → Nat → DoResult
  | 0, _, lastErr, calls, sleeps => ⟨lastErr, calls, sleeps⟩
  | fuel + 1, attempt, lastErr, calls, sleeps =>
      if should attempt then
        if 0 < attempt ∧ cancelAt attempt then
          ⟨some .ctxCancelled, calls, sleeps⟩
        else
          let sleeps1 := if 0 < attempt then sleeps + 1 else sleeps
          match fn attempt with
          | none => ⟨none, calls + 1, sleeps1⟩
          | some e =>
              if e.retryable = some false then
                ⟨some (.fnErr e), calls + 1, sleeps1⟩
              else
                doLoop should cancelAt fn fuel (attempt + 1)
                  (some (.fnErr e)) (calls + 1) sleeps1
      else
        ⟨lastErr, calls, sleeps⟩

/-- `Retrier.Do`: run the loop from attempt 0 with `lastErr = nil`. -/
def Do (should : Nat → Bool) (cancelAt : Nat → Bool)
    (fn : Nat → Option RErr) (fuel : Nat) : DoResult :=
  doLoop should cancelAt fn fuel 0 none 0 0

end Retry

/-! ## Paginated list operations
(email-service/internal/repositories/memory/email_repository.go and
 user-service/internal/repositories/memory/user_repository.go)

Both repositories iterate their records in the creation-time order with
ties broken by identifier; with pairwise-distinct identifiers that sorted
sequence is unique, and a fixed store is modelled by that sequence `l`.
Page sizes are Go `int`, modelled as `Int`. -/

/-- The token-resolution loop shared by both `List` implementations:
`for i, r := range l if r.ID == pageToken then startIndex = i+1; break`,
with `startIndex = 0` when the token is empty or matches no record. -/
def resolveStart (ids : List String) (pageToken : String) : Nat :=
  if pageToken = "" then 0
  else
    let i := ids.findIdx (fun s => s = pageToken)
    if i < ids.length then i + 1 else 0

/-- `EmailRepositoryContainer.List`: a non-positive page size defaults to
10; the page is `l[startIndex:endIndex]` and the next token is the
identifier of the last record of the page when records remain. -/
def emailList (l : List EmailRec) (pageSize : Int) (pageToken : String) :
    List EmailRec × String :=
  let ps : Nat := if pageSize ≤ 0 then 10 else pageSize.toNat
  let s := resolveStart (l.map (fun r => r.id)) pageToken
  if l.length ≤ s then ([], "")
  else
    let e := min (s + ps) l.length
    let page := (l.drop s).take (e - s)
    let next := if e < l.length then (l.getD (e - 1) default).id else ""
    (page, next)

/-- Iterating `List` from a token, feeding back each returned
`next_page_token`, until the returned token is empty; `fuel` bounds the
number of pages taken (with `fuel = l.length + 1` the bound is inert). -/
def listPages (l : List EmailRec) (pageSize : Int) :
    String → Nat → List EmailRec
  | _, 0 => []
  | tok, fuel + 1 =>
      let pr := emailList l pageSize tok
      if pr.2 = "" then pr.1
      else pr.1 ++ listPages l pageSize pr.2 fuel

/-- `UserRepository.List`: same pagination, but with no default for
non-positive page sizes.  `none` models a Go panic from an out-of-bounds
slice index: `l[s:e]` panics when `e < s`, and the next-page-token
computation `l[e-1]` panics when `e = 0`. -/
def userList (l : List UserRec) (pageSize : Int) (pageToken : String) :
    Option (List UserRec × String) :=
  let s := resolveStart (l.map (fun r => r.id)) pageToken
  if l.length ≤ s then some ([], "")
  else
    let e0 : Int := (s : Int) + pageSize
    let e : Int := if (l.length : Int) < e0 then (l.length : Int) else e0
    if e < (s : Int) then none
    else
      let eN := e.toNat
      let page := (l.drop s).take (eN - s)
      if eN < l.length then
        if eN = 0 then none
        else some (page, (l.getD (eN - 1) default).id)
      else
        some (page, "")

end Mailflow

namespace Mailflow

open CB

/-- C1: while the breaker is open, a call with elapsed time
`now - lastFailureTime ≤ timeout` is rejected with `circuit_open` and the
breaker is unchanged (still open); with elapsed time strictly greater than
the timeout, the call is admitted (the wrapped function is invoked) and the
admission step moves the breaker to half-open with `successes` reset to 0
and `halfOpenReqs` counted as 1 for this call. -/
theorem c1_open_gate (cfg : Config) (cb : CircuitBreaker)
    (now now2 : Int) (fnErr : Bool) (hopen : cb.state = .opened) :
    (now - cb.lastFailureTime ≤ cfg.timeout →
      Execute cfg cb now now2 fnErr = ⟨some .circuitOpen, false, cb⟩) ∧
    (cfg.timeout < now - cb.lastFailureTime →
      (Execute cfg cb now now2 fnErr).invoked = true ∧
      (canExecute cfg cb now).2 =
        { cb with state := .halfOpen, successes := 0, halfOpenReqs := 1 }) := by
  constructor
  · intro hle
    have hnot : ¬ cfg.timeout < now - cb.lastFailureTime := not_lt.mpr hle
    simp [Execute, canExecute, hopen, hnot]
  · intro hlt
    simp [Execute, canExecute, hopen, hlt]

/-- Witness for `c1_open_gate` at a concrete open breaker. -/
theorem c1_open_gate_witness :
    Execute defaultConfig
      ⟨.opened, 5, 0, 0, 0⟩ 1000000000 1000000000 false =
      ⟨some .circuitOpen, false, ⟨.opened, 5, 0, 0, 0⟩⟩ :=
  (c1_open_gate defaultConfig ⟨.opened, 5, 0, 0, 0⟩ 1000000000 1000000000 false
    rfl).1 (by decide)

/-- C2: assuming `MaxRequests ≥ 1`, every reachable breaker state keeps
`halfOpenReqs ≤ MaxRequests`; moreover a call attempted in half-open when
`halfOpenReqs` has already reached `MaxRequests` is rejected with
`too_many_requests`, the wrapped function is not invoked, and the breaker
(in particular `halfOpenReqs`) is unchanged. -/
theorem c2_half_open_cap (cfg : Config) (cb : CircuitBreaker)
    (hmax : 1 ≤ cfg.maxRequests) (hr : Reachable cfg cb) :
    cb.halfOpenReqs ≤ cfg.maxRequests ∧
    (∀ (now now2 : Int) (fnErr : Bool), cb.state = .halfOpen →
      cfg.maxRequests ≤ cb.halfOpenReqs →
      Execute cfg cb now now2 fnErr = ⟨some .tooManyRequests, false, cb⟩) := by
  have hinv : cb.halfOpenReqs ≤ cfg.maxRequests := by
    induction hr with
    | init => exact Nat.zero_le _
    | admission cb now _ ih =>
        cases hs : cb.state with
        | closed => simpa [canExecute, hs] using ih
        | opened =>
            by_cases ht : cfg.timeout < now - cb.lastFailureTime
            · simpa [canExecute, hs, ht] using hmax
            · simpa [canExecute, hs, ht] using ih
        | halfOpen =>
            by_cases hc : cfg.maxRequests ≤ cb.halfOpenReqs
            · simpa [canExecute, hs, hc] using ih
            · have : cb.halfOpenReqs + 1 ≤ cfg.maxRequests :=
                Nat.succ_le_of_lt (Nat.lt_of_not_le hc)
              simpa [canExecute, hs, hc] using this
    | record cb err now _ ih =>
        cases hs : cb.state with
        | closed =>
            cases err with
            | false => simpa [recordResult, hs] using ih
            | true =>
                by_cases hf : cfg.failureThreshold ≤ cb.failures + 1
                · simpa [recordResult, hs, hf] using ih
                · simpa [recordResult, hs, hf] using ih
        | opened => simpa [recordResult, hs] using ih
        | halfOpen =>
            cases err with
            | false =>
                by_cases hsucc : cfg.successThreshold ≤ cb.successes + 1
                · simpa [recordResult, hs, hsucc] using ih
                · simpa [recordResult, hs, hsucc] using ih
            | true => simpa [recordResult, hs] using ih
    | reset cb _ _ => exact Nat.zero_le _
  refine ⟨hinv, ?_⟩
  intro now now2 fnErr hs hge
  simp [Execute, canExecute, hs, hge]

/-- Witness for `c2_half_open_cap`: with a config whose `MaxRequests` is 1,
drive a fresh breaker to open by one recorded failure, then through the
timeout into half-open (`halfOpenReqs = 1`); the invariant holds there and
the very next call attempt is rejected with `too_many_requests`. -/
theorem c2_half_open_cap_witness :
    ((canExecute ⟨1, 1, 10, 1⟩
        (recordResult ⟨1, 1, 10, 1⟩ CircuitBreaker.new true 0) 11).2.halfOpenReqs
      ≤ 1) ∧
    Execute ⟨1, 1, 10, 1⟩
        (canExecute ⟨1, 1, 10, 1⟩
          (recordResult ⟨1, 1, 10, 1⟩ CircuitBreaker.new true 0) 11).2
        12 12 false =
      ⟨some .tooManyRequests, false,
        (canExecute ⟨1, 1, 10, 1⟩
          (recordResult ⟨1, 1, 10, 1⟩ CircuitBreaker.new true 0) 11).2⟩ := by
  have h := c2_half_open_cap ⟨1, 1, 10, 1⟩
    (canExecute ⟨1, 1, 10, 1⟩
      (recordResult ⟨1, 1, 10, 1⟩ CircuitBreaker.new true 0) 11).2
    (by decide)
    (Reachable.admission _ 11 (Reachable.record _ true 0 Reachable.init))
  exact ⟨h.1, h.2 12 12 false (by decide) (by decide)⟩

/-- C3 counterexample: with the default config (success threshold 2), a
half-open breaker with one recorded success receives a second success:
the breaker does transition to closed, but `successes` ends at 2, not 0
(and `halfOpenReqs` is also left unchanged at 1), refuting the claim that
this transition resets all counters to zero. -/
theorem c3_counterexample :
    (recordResult defaultConfig ⟨.halfOpen, 5, 1, 0, 1⟩ false 0).state
        = .closed ∧
    (recordResult defaultConfig ⟨.halfOpen, 5, 1, 0, 1⟩ false 0).successes
        ≠ 0 ∧
    (recordResult defaultConfig ⟨.halfOpen, 5, 1, 0, 1⟩ false 0).halfOpenReqs
        ≠ 0 := by
  decide

/-- C3 (amended): when a success in half-open makes `successes + 1` reach
the success threshold, the breaker transitions to closed and resets
`failures` to 0, while `successes` is left at the incremented value and
`halfOpenReqs` and `lastFailureTime` are left unchanged (those two are
re-initialized only on the next open-to-half-open transition). -/
theorem c3_half_open_close (cfg : Config) (cb : CircuitBreaker) (now : Int)
    (hs : cb.state = .halfOpen)
    (hth : cfg.successThreshold ≤ cb.successes + 1) :
    recordResult cfg cb false now =
      { cb with state := .closed, failures := 0,
                successes := cb.successes + 1 } := by
  simp [recordResult, hs, hth]

/-- Witness for `c3_half_open_close` at a concrete half-open breaker. -/
theorem c3_half_open_close_witness :
    recordResult defaultConfig ⟨.halfOpen, 5, 1, 7, 1⟩ false 42 =
      ⟨.closed, 0, 2, 7, 1⟩ :=
  c3_half_open_close defaultConfig ⟨.halfOpen, 5, 1, 7, 1⟩ 42 rfl (by decide)

/-- C4 counterexample: capacity-1 queue holding one pending email; the
processor fails it, and during the 5 s back-off a concurrent producer
fills the queue, so the re-enqueue finds it full.  The drain loop merely
logs: the entry is dropped and its email record still has status
`pending` — it is not marked `failed`, refuting the claim. -/
theorem c4_counterexample :
    drainIteration
        ⟨[⟨"e1", "a@x", "s", "b", .pending, 0, none⟩], 1⟩ true
        [⟨"e2", "b@x", "s", "b", .pending, 0, none⟩] =
      some ⟨⟨[⟨"e2", "b@x", "s", "b", .pending, 0, none⟩], 1⟩, false, false,
        ⟨"e1", "a@x", "s", "b", .pending, 0, none⟩⟩ ∧
    ((drainIteration
        ⟨[⟨"e1", "a@x", "s", "b", .pending, 0, none⟩], 1⟩ true
        [⟨"e2", "b@x", "s", "b", .pending, 0, none⟩]).map
          (fun st => st.email.status)) ≠ some Status.failed := by
  constructor
  · rfl
  · decide

/-- C4 (amended): in the user-service retry queue's drain loop, a dequeued
entry whose processor call fails is re-enqueued (at the back of the queue)
after the back-off whenever the queue then has room; if the queue is full
at that moment the failure is only logged and the entry is dropped, and in
either case the drain loop leaves the email record untouched (in
particular it is never marked `failed` — the marking on queue-full happens
only in the email-service path, `queueForRetry`). -/
theorem c4_drain_requeue (q : EmailQueue) (e : EmailRec)
    (rest : List EmailRec) (arrivals : List EmailRec)
    (hq : q.buffer = e :: rest) :
    (∀ q3, enqueue (enqueueBestEffort ⟨rest, q.capacity⟩ arrivals) e = some q3 →
      drainIteration q true arrivals = some ⟨q3, false, true, e⟩ ∧
      q3.buffer = (enqueueBestEffort ⟨rest, q.capacity⟩ arrivals).buffer ++ [e]) ∧
    (enqueue (enqueueBestEffort ⟨rest, q.capacity⟩ arrivals) e = none →
      drainIteration q true arrivals =
        some ⟨enqueueBestEffort ⟨rest, q.capacity⟩ arrivals, false, false, e⟩) ∧
    ((drainIteration q true arrivals).map (fun st => st.email)) = some e := by
  refine ⟨?_, ?_, ?_⟩
  · intro q3 henq
    have hcap : ({ q with buffer := rest } : EmailQueue) = ⟨rest, q.capacity⟩ := rfl
    constructor
    · simp [drainIteration, hq, hcap, henq]
    · have : (enqueueBestEffort ⟨rest, q.capacity⟩ arrivals).buffer.length <
          (enqueueBestEffort ⟨rest, q.capacity⟩ arrivals).capacity := by
        by_contra hlen
        simp [enqueue, hlen] at henq
      simp [enqueue, this] at henq
      rw [← henq]
  · intro henq
    have hcap : ({ q with buffer := rest } : EmailQueue) = ⟨rest, q.capacity⟩ := rfl
    simp [drainIteration, hq, hcap, henq]
  · cases henq : enqueue (enqueueBestEffort ⟨rest, q.capacity⟩ arrivals) e with
    | none => simp [drainIteration, hq, henq]
    | some q3 => simp [drainIteration, hq, henq]

/-- Witness for `c4_drain_requeue`: a capacity-2 queue with room, where the
failed entry is re-enqueued at the back. -/
theorem c4_drain_requeue_witness :
    drainIteration ⟨[⟨"e1", "a@x", "s", "b", .pending, 0, none⟩], 2⟩ true [] =
      some ⟨⟨[⟨"e1", "a@x", "s", "b", .pending, 0, none⟩], 2⟩, false, true,
        ⟨"e1", "a@x", "s", "b", .pending, 0, none⟩⟩ :=
  ((c4_drain_requeue ⟨[⟨"e1", "a@x", "s", "b", .pending, 0, none⟩], 2⟩
      ⟨"e1", "a@x", "s", "b", .pending, 0, none⟩ [] [] rfl).1
    ⟨[⟨"e1", "a@x", "s", "b", .pending, 0, none⟩], 2⟩ (by decide)).1

/-- C5 counterexample: the save succeeds, the rate limiter fails, and the
retry queue is full: `SendEmail` still returns a nil error, but the email
is not enqueued and its status is `failed`, not `pending` — refuting the
claim that a persisted email always ends up enqueued with status
`pending` on a transient failure. -/
theorem c5_counterexample :
    (sendEmail ⟨false, true, false, false, true⟩ "e1" "a@x" "s" "b" 0 1).returnedErr
        = false ∧
    (sendEmail ⟨false, true, false, false, true⟩ "e1" "a@x" "s" "b" 0 1).enqueued
        = false ∧
    (sendEmail ⟨false, true, false, false, true⟩ "e1" "a@x" "s" "b" 0 1).email.status
        = Status.failed := by
  decide

/-- C5 (amended): when the email is persisted (`saveErr = false`) and the
rate limiter or the downstream sender fails, `SendEmail` never surfaces an
error; if the retry queue has room the email is enqueued with status
`pending`, and if the retry queue is full the email is not enqueued and is
marked `failed` instead. -/
theorem c5_transient_failure_swallowed (d : SendDeps)
    (id toAddr subject body : String) (t0 t1 : Int)
    (hsave : d.saveErr = false)
    (htrans : d.rateLimitErr = true ∨ d.senderErr = true) :
    (sendEmail d id toAddr subject body t0 t1).returnedErr = false ∧
    (d.queueFull = false →
      (sendEmail d id toAddr subject body t0 t1).enqueued = true ∧
      (sendEmail d id toAddr subject body t0 t1).email.status = Status.pending) ∧
    (d.queueFull = true →
      (sendEmail d id toAddr subject body t0 t1).enqueued = false ∧
      (sendEmail d id toAddr subject body t0 t1).email.status = Status.failed) := by
  cases hrl : d.rateLimitErr with
  | true =>
      cases hqf : d.queueFull with
      | true => simp [sendEmail, hsave, hrl, hqf, queueForRetry]
      | false => simp [sendEmail, hsave, hrl, hqf, queueForRetry]
  | false =>
      have hsend : d.senderErr = true := by
        rcases htrans with h | h
        · exact absurd h (by simp [hrl])
        · exact h
      cases hqf : d.queueFull with
      | true => simp [sendEmail, hsave, hrl, hsend, hqf, queueForRetry]
      | false => simp [sendEmail, hsave, hrl, hsend, hqf, queueForRetry]

/-- Witness for `c5_transient_failure_swallowed`: sender failure with room
in the retry queue. -/
theorem c5_transient_failure_swallowed_witness :
    (sendEmail ⟨false, false, true, false, false⟩ "e1" "a@x" "s" "b" 0 1).returnedErr
        = false ∧
    (sendEmail ⟨false, false, true, false, false⟩ "e1" "a@x" "s" "b" 0 1).enqueued
        = true ∧
    (sendEmail ⟨false, false, true, false, false⟩ "e1" "a@x" "s" "b" 0 1).email.status
        = Status.pending := by
  have h := c5_transient_failure_swallowed ⟨false, false, true, false, false⟩
    "e1" "a@x" "s" "b" 0 1 rfl (Or.inr rfl)
  exact ⟨h.1, (h.2.1 rfl).1, (h.2.1 rfl).2⟩

/-- C6: every operation of the sender core that creates or mutates an email
record leaves it satisfying the Email invariant — `sent` implies `SentAt`
is set and at or after `CreatedAt`, `pending`/`failed` imply `SentAt` is
unset — assuming the clock is monotone (the dispatch instant is at or
after the creation instant). -/
theorem c6_email_invariant :
    (∀ (d : SendDeps) (id toAddr subject body : String) (t0 t1 : Int),
      t0 ≤ t1 → emailInv (sendEmail d id toAddr subject body t0 t1).email) ∧
    (∀ (e : EmailRec) (queueFull : Bool),
      emailInv (queueForRetry e queueFull).1) ∧
    (∀ (e : EmailRec) (d : ProcDeps) (now : Int),
      e.createdAt ≤ now → emailInv (processQueueStep e d now).email) := by
  have hq : ∀ (e : EmailRec) (queueFull : Bool),
      emailInv (queueForRetry e queueFull).1 := by
    intro e queueFull
    cases queueFull with
    | true => simp [queueForRetry, emailInv]
    | false => simp [queueForRetry, emailInv]
  refine ⟨?_, hq, ?_⟩
  · intro d id toAddr subject body t0 t1 ht
    cases hs : d.saveErr with
    | true => simp [sendEmail, hs, newEmail, emailInv]
    | false =>
        cases hrl : d.rateLimitErr with
        | true =>
            simpa [sendEmail, hs, hrl] using
              hq (newEmail id toAddr subject body t0) d.queueFull
        | false =>
            cases hsend : d.senderErr with
            | true =>
                simpa [sendEmail, hs, hrl, hsend] using
                  hq (newEmail id toAddr subject body t0) d.queueFull
            | false =>
                cases hu : d.updateErr with
                | true =>
                    simp [sendEmail, hs, hrl, hsend, hu, newEmail, emailInv,
                      EmailRec.sentAtOK, ht]
                | false =>
                    simp [sendEmail, hs, hrl, hsend, hu, newEmail, emailInv,
                      EmailRec.sentAtOK, ht]
  · intro e d now hnow
    cases hrl : d.rateLimitErr with
    | true => simpa [processQueueStep, hrl] using hq e d.queueFull
    | false =>
        cases hsend : d.sendErr with
        | true => simpa [processQueueStep, hrl, hsend] using hq e d.queueFull
        | false =>
            cases hu : d.updateErr with
            | true =>
                simpa [processQueueStep, hrl, hsend, hu] using
                  hq { e with status := Status.sent, sentAt := some now }
                    d.queueFull
            | false =>
                simp [processQueueStep, hrl, hsend, hu, emailInv,
                  EmailRec.sentAtOK, hnow]

/-- Witness for `c6_email_invariant` on a concrete successful send, a
concrete queue-for-retry, and a concrete drain-loop dispatch. -/
theorem c6_email_invariant_witness :
    emailInv (sendEmail ⟨false, false, false, false, false⟩
        "e1" "a@x" "s" "b" 0 5).email ∧
    emailInv (queueForRetry ⟨"e2", "b@x", "s", "b", .sent, 0, some 3⟩ true).1 ∧
    emailInv (processQueueStep ⟨"e3", "c@x", "s", "b", .pending, 2, none⟩
        ⟨false, false, false, false⟩ 9).email :=
  ⟨c6_email_invariant.1 ⟨false, false, false, false, false⟩
      "e1" "a@x" "s" "b" 0 5 (by decide),
   c6_email_invariant.2.1 ⟨"e2", "b@x", "s", "b", .sent, 0, some 3⟩ true,
   c6_email_invariant.2.2 ⟨"e3", "c@x", "s", "b", .pending, 2, none⟩
      ⟨false, false, false, false⟩ 9 (by decide)⟩

/-- C7: whenever the repository persists the user, `UserService.Create`
returns the created user with a nil error and the user stays in the store,
for both outcomes of the welcome-email send — the email error is only
logged and neither fails the operation nor undoes the persistence. -/
theorem c7_create_user_best_effort_email (store store1 : List UserRec)
    (u : UserRec) (hpersist : repoCreateUser store u = some store1) :
    ∀ emailErr : Bool,
      createUser store u emailErr = ⟨store1, some u, false⟩ ∧
      u ∈ store1 := by
  intro emailErr
  have hmem : u ∈ store1 := by
    by_cases hdup : store.any (fun v => v.id = u.id)
    · simp [repoCreateUser, hdup] at hpersist
    · simp [repoCreateUser, hdup] at hpersist
      rw [← hpersist]
      simp
  cases emailErr with
  | true => exact ⟨by simp [createUser, hpersist], hmem⟩
  | false => exact ⟨by simp [createUser, hpersist], hmem⟩

/-- Witness for `c7_create_user_best_effort_email`: a fresh user is
persisted into an empty store and creation succeeds even though the
welcome email fails. -/
theorem c7_create_user_best_effort_email_witness :
    createUser [] ⟨"u1", "a@x", "A", 0, 0⟩ true =
        ⟨[⟨"u1", "a@x", "A", 0, 0⟩], some ⟨"u1", "a@x", "A", 0, 0⟩, false⟩ ∧
    (⟨"u1", "a@x", "A", 0, 0⟩ : UserRec) ∈ [(⟨"u1", "a@x", "A", 0, 0⟩ : UserRec)] :=
  c7_create_user_best_effort_email [] [⟨"u1", "a@x", "A", 0, 0⟩]
    ⟨"u1", "a@x", "A", 0, 0⟩ (by decide) true

/-- C8: for every wrapped function, context and retry strategy, if the
loop admits a first attempt (`ShouldRetry 0`) and that first invocation
returns nil, then `Retrier.Do` returns nil having invoked the function
exactly once, with no back-off sleep. -/
theorem c8_retrier_once (should cancelAt : Nat → Bool)
    (fn : Nat → Option Retry.RErr) (fuel : Nat)
    (hfuel : 1 ≤ fuel) (hshould : should 0 = true) (hfn : fn 0 = none) :
    Retry.Do should cancelAt fn fuel = ⟨none, 1, 0⟩ := by
  obtain ⟨f, rfl⟩ : ∃ f, fuel = f + 1 :=
    ⟨fuel - 1, (Nat.succ_pred_eq_of_pos hfuel).symm⟩
  simp [Retry.Do, Retry.doLoop, hshould, hfn]

/-- Witness for `c8_retrier_once` with the default strategy bound
(`MaxAttempts = 5`) and a function succeeding immediately. -/
theorem c8_retrier_once_witness :
    Retry.Do (fun attempt => attempt < 5) (fun _ => false) (fun _ => none) 5 =
      ⟨none, 1, 0⟩ :=
  c8_retrier_once (fun attempt => attempt < 5) (fun _ => false) (fun _ => none)
    5 (by decide) (by decide) rfl

/-- In a duplicate-free list, the first index whose element equals the
element at position `j` is `j` itself. -/
theorem findIdx_get_self (ids : List String) (hnd : ids.Nodup)
    (j : Nat) (hj : j < ids.length) :
    ids.findIdx (fun s => s = ids.get ⟨j, hj⟩) = j := by
  induction ids generalizing j with
  | nil => simp at hj
  | cons a t ih =>
      cases j with
      | zero => simp [List.findIdx_cons]
      | succ k =>
          have hk : k < t.length := Nat.lt_of_succ_lt_succ hj
          have hget : (a :: t).get ⟨k + 1, hj⟩ = t.get ⟨k, hk⟩ := rfl
          have hmem : t.get ⟨k, hk⟩ ∈ t := List.get_mem t k hk
          have hne : ¬ (a = t.get ⟨k, hk⟩) := by
            intro he
            exact (List.nodup_cons.mp hnd).1 (he ▸ hmem)
          rw [hget, List.findIdx_cons]
          simp only [hne, decide_False, cond_false]
          rw [ih (List.nodup_cons.mp hnd).2 k hk]

/-- Token resolution at the identifier of the record in position `j`
yields start index `j + 1`. -/
theorem resolveStart_get (ids : List String) (hnd : ids.Nodup)
    (j : Nat) (hj : j < ids.length) (hne : ids.get ⟨j, hj⟩ ≠ "") :
    resolveStart ids (ids.get ⟨j, hj⟩) = j + 1 := by
  unfold resolveStart
  rw [if_neg hne, findIdx_get_self ids hnd j hj, if_pos hj]

/-- `emailList` when the start index is already past the end: empty page,
empty token. -/
theorem emailList_done (l : List EmailRec) (ps : Int) (s : Nat) (tok : String)
    (hres : resolveStart (l.map (fun r => r.id)) tok = s)
    (hend : l.length ≤ s) :
    emailList l ps tok = ([], "") := by
  simp [emailList, hres, hend]

/-- `emailList` on a middle page: a full page of `ps.toNat` records starting
at `s`, with the identifier of the page's last record as next token. -/
theorem emailList_mid (l : List EmailRec) (ps : Int) (s : Nat) (tok : String)
    (hps : ¬ ps ≤ 0)
    (hres : resolveStart (l.map (fun r => r.id)) tok = s)
    (hlast : s + ps.toNat < l.length) (hj : s + ps.toNat - 1 < l.length) :
    emailList l ps tok =
      ((l.drop s).take ps.toNat, (l.get ⟨s + ps.toNat - 1, hj⟩).id) := by
  have hend : ¬ (l.length ≤ s) := by omega
  have hmin : min (s + ps.toNat) l.length = s + ps.toNat :=
    Nat.min_eq_left (Nat.le_of_lt hlast)
  have hgetD : l.getD (s + ps.toNat - 1) default = l.get ⟨s + ps.toNat - 1, hj⟩ :=
    List.getD_eq_get l default hj
  have h7 : s + ps.toNat - s = ps.toNat := by omega
  simp [emailList, hres, hps, hend, hmin, hlast, hgetD, h7,
    List.getElem?_eq_getElem hj]

/-- `emailList` on the final page: everything from `s` on, empty next
token. -/
theorem emailList_fin (l : List EmailRec) (ps : Int) (s : Nat) (tok : String)
    (hps : ¬ ps ≤ 0)
    (hres : resolveStart (l.map (fun r => r.id)) tok = s)
    (hend : s < l.length) (hlast : l.length ≤ s + ps.toNat) :
    emailList l ps tok = (l.drop s, "") := by
  have h1 : ¬ (l.length ≤ s) := Nat.not_le.mpr hend
  have hmin : min (s + ps.toNat) l.length = l.length := Nat.min_eq_right hlast
  have htake : (l.drop s).take (l.length - s) = l.drop s :=
    List.take_of_length_le (by simp)
  simp [emailList, hres, hps, h1, hmin, htake]

/-- Iterating `emailList` from any token resolving to start index `s`
yields exactly the records from position `s` on, provided identifiers are
pairwise distinct and non-empty and the requested page size is positive. -/
theorem listPages_drop (l : List EmailRec) (ps : Int) (hps : 1 ≤ ps)
    (hnd : (l.map (fun r => r.id)).Nodup)
    (hne : ∀ r ∈ l, r.id ≠ "") :
    ∀ (fuel s : Nat) (tok : String),
      resolveStart (l.map (fun r => r.id)) tok = s →
      l.length - s < fuel →
      listPages l ps tok fuel = l.drop s := by
  intro fuel
  induction fuel with
  | zero => intro s tok _ h; omega
  | succ f ih =>
      intro s tok hres hlt
      have hpsn : 1 ≤ ps.toNat := by omega
      have hpsd : ¬ (ps ≤ 0) := by omega
      by_cases hend : l.length ≤ s
      · rw [listPages, emailList_done l ps s tok hres hend]
        simp [List.drop_of_length_le hend]
      · push_neg at hend
        by_cases hlast : s + ps.toNat < l.length
        · -- a middle page: a further page follows
          have hj : s + ps.toNat - 1 < l.length := by omega
          have hjm : s + ps.toNat - 1 < (l.map (fun r => r.id)).length := by
            simpa using hj
          have hgetmap :
              (l.map (fun r => r.id)).get ⟨s + ps.toNat - 1, hjm⟩ =
                (l.get ⟨s + ps.toNat - 1, hj⟩).id := by
            simp
          have hmem : l.get ⟨s + ps.toNat - 1, hj⟩ ∈ l := List.get_mem l _ hj
          have htokne : (l.get ⟨s + ps.toNat - 1, hj⟩).id ≠ "" := hne _ hmem
          have hres2 :
              resolveStart (l.map (fun r => r.id))
                  (l.get ⟨s + ps.toNat - 1, hj⟩).id = s + ps.toNat := by
            have h := resolveStart_get (l.map (fun r => r.id)) hnd
              (s + ps.toNat - 1) hjm (by rw [hgetmap]; exact htokne)
            rw [hgetmap] at h
            rw [h]
            omega
          have hrec := ih (s + ps.toNat) (l.get ⟨s + ps.toNat - 1, hj⟩).id
            hres2 (by omega)
          rw [listPages, emailList_mid l ps s tok hpsd hres hlast hj]
          simp only [htokne, if_false, ite_false]
          rw [hrec, ← List.drop_drop, List.take_append_drop]
        · -- the final page: the returned token is empty
          push_neg at hlast
          rw [listPages, emailList_fin l ps s tok hpsd hres hend hlast]
          simp

/-- C9: over a fixed email store with pairwise-distinct, non-empty
identifiers, iterating `List` with page size at least 1, starting from the
empty page token and feeding back each returned `next_page_token` until it
is empty, returns exactly the stored records in order — each visited once,
none skipped, none repeated. -/
theorem c9_list_roundtrip (l : List EmailRec) (ps : Int) (hps : 1 ≤ ps)
    (hnd : (l.map (fun r => r.id)).Nodup)
    (hne : ∀ r ∈ l, r.id ≠ "") :
    listPages l ps "" (l.length + 1) = l := by
  have h := listPages_drop l ps hps hnd hne (l.length + 1) 0 ""
    (by simp [resolveStart]) (by omega)
  simpa using h

/-- Witness for `c9_list_roundtrip` on a three-record store paged two at a
time. -/
theorem c9_list_roundtrip_witness :
    listPages
        [⟨"a", "a@x", "s", "b", .sent, 0, some 1⟩,
         ⟨"b", "b@x", "s", "b", .pending, 1, none⟩,
         ⟨"c", "c@x", "s", "b", .failed, 2, none⟩] 2 "" 4 =
      [⟨"a", "a@x", "s", "b", .sent, 0, some 1⟩,
       ⟨"b", "b@x", "s", "b", .pending, 1, none⟩,
       ⟨"c", "c@x", "s", "b", .failed, 2, none⟩] :=
  c9_list_roundtrip
    [⟨"a", "a@x", "s", "b", .sent, 0, some 1⟩,
     ⟨"b", "b@x", "s", "b", .pending, 1, none⟩,
     ⟨"c", "c@x", "s", "b", .failed, 2, none⟩] 2
    (by decide) (by decide) (by decide)

/-- C10: `UserRepository.List` is total for every page size at least 1 (no
slice access can go out of bounds), but with page size 0, an empty token
and a non-empty store the next-page-token computation indexes the sorted
slice at `endIndex - 1 = -1` and panics; the email-repository variant is
guarded, behaving for page size 0 exactly as for its default page size
10. -/
theorem c10_userList_totality :
    (∀ (l : List UserRec) (ps : Int) (tok : String), 1 ≤ ps →
      (userList l ps tok).isSome = true) ∧
    (∀ l : List UserRec, l ≠ [] → userList l 0 "" = none) ∧
    (∀ (l : List EmailRec) (tok : String), emailList l 0 tok = emailList l 10 tok) := by
  refine ⟨?_, ?_, ?_⟩
  · intro l ps tok hps
    unfold userList
    by_cases h1 : l.length ≤ resolveStart (l.map fun r => r.id) tok
    · simp [h1]
    · push_neg at h1
      set s := resolveStart (l.map fun r => r.id) tok with hs
      have h1n : ¬ (l.length ≤ s) := Nat.not_le.mpr h1
      by_cases h2 : (l.length : Int) < (s : Int) + ps
      · have h3 : ¬ ((l.length : Int) < (s : Int)) := by
          push_neg
          exact_mod_cast Nat.le_of_lt h1
        have h4 : ¬ ((l.length : Int).toNat < l.length) := by simp
        simp [h1n, h2, h3, h4]
      · have h3 : ¬ ((s : Int) + ps < (s : Int)) := by omega
        have h4 : ((s : Int) + ps).toNat = s + ps.toNat := by omega
        by_cases h5 : s + ps.toNat < l.length
        · have h6 : ¬ (s + ps.toNat = 0) := by omega
          simp [h1n, h2, h3, h4, h5, h6]
        · simp [h1n, h2, h3, h4, h5]
  · intro l hl
    have hlen : 0 < l.length := List.length_pos.mpr hl
    unfold userList
    have hres : resolveStart (l.map fun r => r.id) "" = 0 := by
      simp [resolveStart]
    have hneg : ¬ ((l.length : Int) < 0) := by omega
    simp [hres, hl, hlen, hneg]
  · intro l tok
    have h0 : ((0 : Int) ≤ 0) = True := by simp
    have h10 : ¬ ((10 : Int) ≤ 0) := by omega
    simp [emailList, h10]

/-- Witness for `c10_userList_totality`: a singleton store succeeds with
page size 1 and panics with page size 0. -/
theorem c10_userList_totality_witness :
    (userList [⟨"u1", "a@x", "A", 0, 0⟩] 1 "").isSome = true ∧
    userList [⟨"u1", "a@x", "A", 0, 0⟩] 0 "" = none :=
  ⟨c10_userList_totality.1 [⟨"u1", "a@x", "A", 0, 0⟩] 1 "" (by decide),
   c10_userList_totality.2.1 [⟨"u1", "a@x", "A", 0, 0⟩] (by decide)⟩

end Mailflow
